import Mathlib

/-
Verification of the Fzolv 2D vector library (src/include/vector.hpp) against
its natural-language specification.

The C++ class Vector2<T> is parameterized over a numeric component type T
(an integral or floating-point scalar).  We embed it as a Lean structure
Vector2 alpha with the operations translated from the source.  Order-based
operations (clampToMax, clampToMin) are stated over a LinearOrder, algebraic
ones over a CommRing, and the ones that use std::sqrt or division (length,
normalize, Lerp) over the real numbers, which idealize the C++ floating
arithmetic with exact arithmetic.  The in-place mutators of the source
(normalize, clampToMax, clampToMin, move special members) are embedded as
functions from the prior state of the object to its new state.
-/

namespace Fzolv

/-- The two public fields `T x; T y;` of `Vector2<T>` (vector.hpp lines
479-484). -/
@[ext]
structure Vector2 (α : Type) where
  x : α
  y : α
deriving DecidableEq

/-- Embeds `clampToMax` (vector.hpp lines 259-266): `if (x > other.x) x =
other.x; if (y > other.y) y = other.y;` applied to the state, returning the
new state of the object (the C++ method mutates in place and returns a
reference to the same instance). -/
def Vector2.clampToMax {α : Type} [LinearOrder α] (v other : Vector2 α) : Vector2 α :=
  ⟨if v.x > other.x then other.x else v.x,
   if v.y > other.y then other.y else v.y⟩

/-- Embeds `clampToMin` (vector.hpp lines 284-291): `if (x < other.x) x =
other.x; if (y < other.y) y = other.y;`. -/
def Vector2.clampToMin {α : Type} [LinearOrder α] (v other : Vector2 α) : Vector2 α :=
  ⟨if v.x < other.x then other.x else v.x,
   if v.y < other.y then other.y else v.y⟩

/-- Modelled from the spec: the static member `Vector2::clamp(value, min, max)`
is invoked by the test suite (test.cpp line 274) but its definition is absent
from vector.hpp.  The spec describes it as the component-wise clamp of `value`
into the closed box given by `min` and `max`; it is realised here as the
composition of the two in-place helpers that are present in the source,
limiting to the maximum bound and then raising to the minimum bound. -/
def Vector2.clamp {α : Type} [LinearOrder α] (value lo hi : Vector2 α) : Vector2 α :=
  (value.clampToMax hi).clampToMin lo

/-- Embeds `lengthSquared` (vector.hpp lines 141-144): `(x * x) + (y * y)`. -/
def Vector2.lengthSquared {α : Type} [Ring α] (v : Vector2 α) : α :=
  (v.x * v.x) + (v.y * v.y)

/-- Embeds `length` (vector.hpp lines 151-154): `std::sqrt(lengthSquared())`,
idealized over the reals. -/
noncomputable def Vector2.length (v : Vector2 ℝ) : ℝ :=
  Real.sqrt v.lengthSquared

/-- Embeds `normalize` (vector.hpp lines 161-170): `auto len = length(); if
(len != 0) \x7b x /= len; y /= len; \x7d return *this;`, as a function from the
prior state to the new state of the instance. -/
noncomputable def Vector2.normalize (v : Vector2 ℝ) : Vector2 ℝ :=
  if v.length ≠ 0 then ⟨v.x / v.length, v.y / v.length⟩ else v

/-- Embeds `cross` (vector.hpp lines 214-217): `x * other.y - y * other.x`. -/
def Vector2.cross {α : Type} [Ring α] (v other : Vector2 α) : α :=
  v.x * other.y - v.y * other.x

/-- Embeds `distanceToSquared` (vector.hpp lines 225-230): `auto dx = x -
other.x; auto dy = y - other.y; return (dx * dx) + (dy * dy);`. -/
def Vector2.distanceToSquared {α : Type} [Ring α] (v other : Vector2 α) : α :=
  (v.x - other.x) * (v.x - other.x) + (v.y - other.y) * (v.y - other.y)

/-- Embeds the friend `operator+` (vector.hpp lines 389-392). -/
def Vector2.add {α : Type} [Ring α] (lhs rhs : Vector2 α) : Vector2 α :=
  ⟨lhs.x + rhs.x, lhs.y + rhs.y⟩

/-- Embeds the friend `operator-` (vector.hpp lines 394-397). -/
def Vector2.sub {α : Type} [Ring α] (lhs rhs : Vector2 α) : Vector2 α :=
  ⟨lhs.x - rhs.x, lhs.y - rhs.y⟩

/-- Embeds the friend `operator*` by a scalar (vector.hpp lines 399-402). -/
def Vector2.mulScalar {α : Type} [Ring α] (lhs : Vector2 α) (scalar : α) : Vector2 α :=
  ⟨lhs.x * scalar, lhs.y * scalar⟩

/-- Embeds the friend `operator/` by a scalar (vector.hpp lines 404-407). -/
def Vector2.divScalar {α : Type} [DivisionRing α] (lhs : Vector2 α) (scalar : α) : Vector2 α :=
  ⟨lhs.x / scalar, lhs.y / scalar⟩

/-- Embeds `Lerp` (vector.hpp lines 382-387): `start + ((end - start) *
amount)` computed component-wise, idealized over the reals (the C++ source
performs the arithmetic in single-precision float and converts back to T). -/
def Vector2.Lerp (start fin : Vector2 ℝ) (amount : ℝ) : Vector2 ℝ :=
  ⟨start.x + ((fin.x - start.x) * amount),
   start.y + ((fin.y - start.y) * amount)⟩

/-- Embeds the friend `operator==` (vector.hpp lines 465-468): `lhs.x == rhs.x
&& lhs.y == rhs.y`. -/
def Vector2.beq {α : Type} [DecidableEq α] (lhs rhs : Vector2 α) : Bool :=
  decide (lhs.x = rhs.x) && decide (lhs.y = rhs.y)

/-- Embeds the friend `operator!=` (vector.hpp lines 470-473): `!(lhs ==
rhs)`. -/
def Vector2.bne {α : Type} [DecidableEq α] (lhs rhs : Vector2 α) : Bool :=
  !(Vector2.beq lhs rhs)

/-- Embeds the move constructor (vector.hpp lines 47-55): the new instance
receives the source's components and the source is reset to zero.  The result
pairs the state of the newly constructed instance with the post-move state of
the source. -/
def Vector2.moveFrom {α : Type} [Zero α] (other : Vector2 α) : Vector2 α × Vector2 α :=
  (⟨other.x, other.y⟩, ⟨0, 0⟩)

/-- Embeds the move assignment `operator=(Vector2&&)` (vector.hpp lines
71-84).  The C++ body is guarded by `if (this != &other)`: the Boolean
`distinct` records whether the two references denote distinct objects.  The
result pairs the final state of the assigned-to instance with the final state
of the source; when the operands alias (`distinct = false`) both are the one
unchanged object. -/
def Vector2.moveAssign {α : Type} [Zero α] (self other : Vector2 α)
    (distinct : Bool) : Vector2 α × Vector2 α :=
  if distinct then (⟨other.x, other.y⟩, ⟨0, 0⟩) else (self, self)

/-- Embeds the factory `Zero()` (vector.hpp line 101): `return \x7b.0F, .0F\x7d;`.
The float literal `.0F` holds the integer value 0 exactly; its conversion to
the component type T is modelled as the canonical integer cast. -/
def Vector2.Zero {α : Type} [IntCast α] : Vector2 α :=
  ⟨((0 : ℤ) : α), ((0 : ℤ) : α)⟩

/-- Embeds the factory `One()` (vector.hpp line 108): `return \x7b1.0F, 1.0F\x7d;`.
The float literal `1.0F` holds the integer value 1 exactly. -/
def Vector2.One {α : Type} [IntCast α] : Vector2 α :=
  ⟨((1 : ℤ) : α), ((1 : ℤ) : α)⟩

/-- Embeds the factory `UnitX()` (vector.hpp line 115): `return \x7b1.0F, .0F\x7d;`. -/
def Vector2.UnitX {α : Type} [IntCast α] : Vector2 α :=
  ⟨((1 : ℤ) : α), ((0 : ℤ) : α)⟩

/-- Embeds the factory `UnitY()` (vector.hpp line 122): `return \x7b.0F, 1.0F\x7d;`. -/
def Vector2.UnitY {α : Type} [IntCast α] : Vector2 α :=
  ⟨((0 : ℤ) : α), ((1 : ℤ) : α)⟩

/-- Helper: the branch written in `clampToMax` computes the component-wise
minimum. -/
theorem if_gt_eq_min {α : Type} [LinearOrder α] (a b : α) :
    (if b < a then b else a) = min a b := by
  rcases le_or_lt a b with h | h
  · rw [if_neg (not_lt.mpr h), min_eq_left h]
  · rw [if_pos h, min_eq_right h.le]

/-- Helper: the branch written in `clampToMin` computes the component-wise
maximum. -/
theorem if_lt_eq_max {α : Type} [LinearOrder α] (a b : α) :
    (if a < b then b else a) = max a b := by
  rcases le_or_lt b a with h | h
  · rw [if_neg (not_lt.mpr h), max_eq_left h]
  · rw [if_pos h, max_eq_right h.le]

/-- Helper: one component of `clamp` (clampToMax then clampToMin) agrees with
the closed-interval clamp described by the spec, provided the bounds are
ordered. -/
theorem clamp_component {α : Type} [LinearOrder α] (a l h : α) (hlh : l ≤ h) :
    (if (if h < a then h else a) < l then l else (if h < a then h else a)) =
      if a < l then l else if h < a then h else a := by
  rcases lt_or_le h a with h1 | h1
  · simp only [if_pos h1]
    rw [if_neg (not_lt.mpr hlh), if_neg (not_lt.mpr (hlh.trans h1.le))]
  · simp only [if_neg (not_lt.mpr h1)]

/-- Claim C1: `clamp(value, min, max)` clamps component-wise into the closed
box: whenever `min.x ≤ max.x` and `min.y ≤ max.y`, each result component is
the value component if it lies within the bounds (inclusive, so a component
exactly at a bound is returned unchanged), the lower bound if below it, and
the upper bound if above it. -/
theorem claim_C1_clamp_componentwise {α : Type} [LinearOrder α]
    (value lo hi : Vector2 α) (hx : lo.x ≤ hi.x) (hy : lo.y ≤ hi.y) :
    (Vector2.clamp value lo hi).x =
      (if value.x < lo.x then lo.x else if hi.x < value.x then hi.x else value.x) ∧
    (Vector2.clamp value lo hi).y =
      (if value.y < lo.y then lo.y else if hi.y < value.y then hi.y else value.y) := by
  simp only [Vector2.clamp, Vector2.clampToMax, Vector2.clampToMin, gt_iff_lt]
  exact ⟨clamp_component value.x lo.x hi.x hx, clamp_component value.y lo.y hi.y hy⟩

/-- Witness for C1: clamping (7, -2) into the box [0,5] x [0,5] gives
(5, 0). -/
theorem claim_C1_witness :
    (Vector2.clamp (⟨7, -2⟩ : Vector2 ℤ) ⟨0, 0⟩ ⟨5, 5⟩).x = 5 ∧
    (Vector2.clamp (⟨7, -2⟩ : Vector2 ℤ) ⟨0, 0⟩ ⟨5, 5⟩).y = 0 := by
  have h := claim_C1_clamp_componentwise (⟨7, -2⟩ : Vector2 ℤ) ⟨0, 0⟩ ⟨5, 5⟩
    (by decide) (by decide)
  exact ⟨h.1.trans (by decide), h.2.trans (by decide)⟩

/-- Claim C10: the in-place `clampToMax` computes the component-wise minimum
with the bound, and `clampToMin` the component-wise maximum; the new state of
the instance is exactly that vector. -/
theorem claim_C10_clampToMax_min_clampToMin_max {α : Type} [LinearOrder α]
    (v m : Vector2 α) :
    v.clampToMax m = ⟨min v.x m.x, min v.y m.y⟩ ∧
    v.clampToMin m = ⟨max v.x m.x, max v.y m.y⟩ := by
  constructor
  · simp only [Vector2.clampToMax, gt_iff_lt, Vector2.mk.injEq]
    exact ⟨if_gt_eq_min v.x m.x, if_gt_eq_min v.y m.y⟩
  · simp only [Vector2.clampToMin, Vector2.mk.injEq]
    exact ⟨if_lt_eq_max v.x m.x, if_lt_eq_max v.y m.y⟩

/-- Claim C7: `cross` is anti-commutative, `a.cross(b) == -(b.cross(a))`,
where `cross` returns the scalar `x*other.y - y*other.x`. -/
theorem claim_C7_cross_anticomm {α : Type} [CommRing α] (a b : Vector2 α) :
    a.cross b = -(b.cross a) := by
  simp only [Vector2.cross]
  ring

/-- Claim C8: `a.distanceToSquared(b)` agrees with `(a - b).lengthSquared()`
for all vectors. -/
theorem claim_C8_distanceToSquared_eq {α : Type} [Ring α] (a b : Vector2 α) :
    a.distanceToSquared b = (a.sub b).lengthSquared := rfl

/-- Claim C3: after move-construction or (non-aliased) move-assignment from a
source `s`, the destination equals the pre-move value of `s` and `s` itself
equals `(0, 0)` afterward. -/
theorem claim_C3_move_resets_source {α : Type} [Zero α] (s d : Vector2 α) :
    Vector2.moveFrom s = (s, (⟨0, 0⟩ : Vector2 α)) ∧
    Vector2.moveAssign d s true = (s, (⟨0, 0⟩ : Vector2 α)) :=
  ⟨rfl, rfl⟩

/-- Claim C9: move-assigning a vector to itself takes the self-assignment
guard (`this != &other` is false, so `distinct = false`) and leaves the one
object completely unchanged: its state is still `v`, neither transferred nor
reset to zero. -/
theorem claim_C9_self_move_assign_unchanged {α : Type} [Zero α] (v : Vector2 α) :
    Vector2.moveAssign v v false = (v, v) := rfl

/-- Claim C4: `Lerp(start, end, amount)` computes `start + (end - start) *
amount` component-wise; in particular `Lerp(a,b,0) = a`, `Lerp(a,b,1) = b`,
and `Lerp(a,b,1/2) = (a+b)/2`, and any amount outside `[0,1]` still follows
the same affine formula (extrapolation, no clamping). -/
theorem claim_C4_Lerp_affine (a b : Vector2 ℝ) (t : ℝ) :
    Vector2.Lerp a b t = a.add ((b.sub a).mulScalar t) ∧
    Vector2.Lerp a b 0 = a ∧
    Vector2.Lerp a b 1 = b ∧
    Vector2.Lerp a b (1 / 2) = (a.add b).divScalar 2 := by
  refine ⟨?_, ?_, ?_, ?_⟩ <;>
    refine Vector2.ext ?_ ?_ <;>
    simp only [Vector2.Lerp, Vector2.add, Vector2.sub, Vector2.mulScalar,
      Vector2.divScalar] <;>
    ring

/-- Claim C5: `==` is exact component-wise equality with no tolerance, it is
reflexive, symmetric and transitive, and `!=` is its Boolean negation. -/
theorem claim_C5_equality_equivalence {α : Type} [DecidableEq α]
    (u v w : Vector2 α) :
    (Vector2.beq u v = true ↔ u.x = v.x ∧ u.y = v.y) ∧
    Vector2.beq u u = true ∧
    (Vector2.beq u v = true → Vector2.beq v u = true) ∧
    (Vector2.beq u v = true → Vector2.beq v w = true → Vector2.beq u w = true) ∧
    Vector2.bne u v = !(Vector2.beq u v) := by
  refine ⟨?_, ?_, ?_, ?_, rfl⟩
  · simp [Vector2.beq]
  · simp [Vector2.beq]
  · intro h
    simp only [Vector2.beq, Bool.and_eq_true, decide_eq_true_eq] at h ⊢
    exact ⟨h.1.symm, h.2.symm⟩
  · intro h1 h2
    simp only [Vector2.beq, Bool.and_eq_true, decide_eq_true_eq] at h1 h2 ⊢
    exact ⟨h1.1.trans h2.1, h1.2.trans h2.2⟩

/-- Witness for C5: transitivity applied at concrete integer vectors. -/
theorem claim_C5_witness :
    Vector2.beq (⟨1, 2⟩ : Vector2 ℤ) ⟨1, 2⟩ = true :=
  (claim_C5_equality_equivalence (⟨1, 2⟩ : Vector2 ℤ) ⟨1, 2⟩ ⟨1, 2⟩).2.2.2.1
    (by decide) (by decide)

/-- Claim C6: the factories return `Zero() = (0,0)`, `One() = (1,1)`,
`UnitX() = (1,0)` and `UnitY() = (0,1)` as values of the component type, the
integer-valued float literals in the source converting exactly. -/
theorem claim_C6_factories {α : Type} [AddGroupWithOne α] :
    (Vector2.Zero : Vector2 α) = ⟨0, 0⟩ ∧
    (Vector2.One : Vector2 α) = ⟨1, 1⟩ ∧
    (Vector2.UnitX : Vector2 α) = ⟨1, 0⟩ ∧
    (Vector2.UnitY : Vector2 α) = ⟨0, 1⟩ := by
  refine ⟨?_, ?_, ?_, ?_⟩ <;>
    simp [Vector2.Zero, Vector2.One, Vector2.UnitX, Vector2.UnitY]

/-- Claim C2: `normalize()` leaves the vector unchanged when its length is
zero (silent no-op), and otherwise divides both components by the length in
place, after which the length is 1 and the component ratio is unchanged
(stated cross-multiplied so it also covers a zero component). -/
theorem claim_C2_normalize (v : Vector2 ℝ) :
    (v.length = 0 → v.normalize = v) ∧
    (v.length ≠ 0 →
      v.normalize.length = 1 ∧ v.normalize.x * v.y = v.normalize.y * v.x) := by
  constructor
  · intro h
    simp [Vector2.normalize, h]
  · intro h
    have hS : 0 < v.lengthSquared := by
      by_contra hc
      push_neg at hc
      exact h (Real.sqrt_eq_zero'.mpr hc)
    have hL : 0 < v.length := Real.sqrt_pos.mpr hS
    have hmul : v.length * v.length = v.x * v.x + v.y * v.y :=
      Real.mul_self_sqrt hS.le
    have hnv : v.normalize = ⟨v.x / v.length, v.y / v.length⟩ := by
      simp [Vector2.normalize, h]
    refine ⟨?_, ?_⟩
    · rw [hnv]
      have h1 : Vector2.lengthSquared
          (⟨v.x / v.length, v.y / v.length⟩ : Vector2 ℝ) = 1 := by
        simp only [Vector2.lengthSquared]
        field_simp
        linarith [hmul]
      show Real.sqrt (Vector2.lengthSquared
        (⟨v.x / v.length, v.y / v.length⟩ : Vector2 ℝ)) = 1
      rw [h1, Real.sqrt_one]
    · rw [hnv]
      show v.x / v.length * v.y = v.y / v.length * v.x
      ring

/-- Witness for C2: normalizing (3, 4) yields a vector of length 1. -/
theorem claim_C2_witness :
    ((⟨3, 4⟩ : Vector2 ℝ).normalize).length = 1 :=
  ((claim_C2_normalize ⟨3, 4⟩).2 (by
    show Real.sqrt (Vector2.lengthSquared (⟨3, 4⟩ : Vector2 ℝ)) ≠ 0
    rw [Real.sqrt_ne_zero']
    norm_num [Vector2.lengthSquared])).1

end Fzolv
